import Mathlib

/-!
Verification of the persona-ranking system's evaluation harness and beam-search
prompt optimizer.

The development shallowly embeds the algorithmic core of the repository:

* `EvaluationService` — metric calculation (`calculateMAE`, `calculateRMSE`,
  `calculateKendallTau`), ranking deduplication and metric aggregation, from
  `packages/api/src/services/evaluation.service.ts`.
* `PromptOptimization` — the convergence check, beam update/tie-break order,
  the iteration loop and run finalization, from
  `packages/api/src/services/prompt-optimization.service.ts`.
* `QualificationAgent` — the missing-item retry and conservative fallback of
  the lead-qualification agent.
* `VariantGenerator` — the required placeholder validation of generated
  prompt variants.
* `RankingAgent` — the error containment wrapper of `rankQualifiedLeads`,
  from `packages/api/src/agents/ranking.agent.ts`.

Modelling conventions: JavaScript numbers are modelled as `ℚ` (all metric
arithmetic in the source is exact rational arithmetic except the square roots,
which are modelled in `ℝ` via `Real.sqrt`); functions that `throw` are modelled
as `Except String`; the generative-model calls are oracle parameters.
-/

/-- One per-entity ranking entry `{leadId, rank, reasoning}` as produced by the
batch scoring agent and consumed by the evaluation harness. -/
structure RankingEntry where
  leadId : String
  rank : ℤ
  reasoning : String
deriving DecidableEq, Repr

/-- The metric quadruple carried by prompt versions and optimization runs
(interface `EvaluationMetrics` of the source, stored values). -/
structure EvaluationMetrics where
  mae : ℚ
  rmse : ℚ
  spearmanCorrelation : ℚ
  kendallTau : ℚ
deriving DecidableEq, Repr

/-- An in-memory beam-search candidate (interface `InMemoryCandidate`): a prompt
text with its evaluation metrics, lineage pointer and transient rankings.
`id` is `some` only for the already-persisted baseline. -/
structure Candidate where
  id : Option String
  promptText : String
  parentVersionId : String
  rankings : List RankingEntry
  mae : ℚ
  rmse : ℚ
  spearmanCorrelation : ℚ
  kendallTau : ℚ
deriving DecidableEq, Repr

namespace EvaluationService

/-- JavaScript `Map.set` on an insertion-ordered map keyed by `leadId`: an
existing key keeps its position but gets the new value, a new key is appended.
The source builds `new Map(rankings.map(r => [r.leadId, r]))`, whose keys are
always the entry's own `leadId`, so the map is represented by its value list. -/
def mapSet (m : List RankingEntry) (r : RankingEntry) : List RankingEntry :=
  if m.any (fun e => e.leadId == r.leadId) then
    m.map (fun e => if e.leadId == r.leadId then r else e)
  else
    m ++ [r]

/-- Builds the JavaScript `Map` from an entry list, in list order. -/
def buildRankingMap (l : List RankingEntry) : List RankingEntry :=
  l.foldl mapSet []

/-- Embeds `deduplicateRankings` of `evaluation.service.ts`: filter the
flattened rankings to entityIds present in the ground-truth set, then collapse
duplicates through a JavaScript `Map` keyed by `leadId` and return its values. -/
def deduplicateRankings (allRankings : List RankingEntry) (validEvalLeadIds : List String) :
    List RankingEntry :=
  buildRankingMap (allRankings.filter (fun r => validEvalLeadIds.contains r.leadId))

/-- First entry of an entry list carrying the given `leadId` (the entry a
JavaScript `Map` lookup would yield once keys are unique). -/
def lookupId (m : List RankingEntry) (k : String) : Option RankingEntry :=
  m.find? (fun e => e.leadId == k)

/-- Embeds `calculateMAE`: mean absolute error, throwing on empty or
length-mismatched inputs. The per-index `undefined` guard of the source is
unreachable once the lengths agree and is dropped by the `zip`. -/
def calculateMAE (predicted actual : List ℚ) : Except String ℚ :=
  if predicted.length = 0 ∨ actual.length = 0 then
    .error "Cannot calculate MAE: empty arrays"
  else if predicted.length ≠ actual.length then
    .error "Length mismatch"
  else
    .ok ((((predicted.zip actual).map (fun pa => |pa.1 - pa.2|)).sum) / (predicted.length : ℚ))

/-- Embeds `calculateRMSE`: root mean square error, throwing on empty or
length-mismatched inputs. -/
noncomputable def calculateRMSE (predicted actual : List ℚ) : Except String ℝ :=
  if predicted.length = 0 ∨ actual.length = 0 then
    .error "Cannot calculate RMSE: empty arrays"
  else if predicted.length ≠ actual.length then
    .error "Length mismatch"
  else
    .ok (Real.sqrt (((((predicted.zip actual).map (fun pa => (pa.1 - pa.2) ^ 2)).sum) /
      (predicted.length : ℚ) : ℚ)))

/-- `Math.sign` on a rational difference. -/
def sgn (q : ℚ) : ℤ :=
  if 0 < q then 1 else if q < 0 then -1 else 0

/-- Enumerates the index pairs `(i, j)` with `i < j < n`, the domain of the
nested loops of `calculateKendallTau` (`i` from `0`, `j` from `i + 1`). -/
def ktPairs (n : ℕ) : List (ℕ × ℕ) :=
  (List.range n).flatMap (fun j => (List.range j).map (fun i => (i, j)))

/-- Sign of `l[j] − l[i]` for an index pair, as computed inside the loop body
(indices are in range whenever `p ∈ ktPairs l.length`, so the default is dead). -/
def ktSign (l : List ℚ) (p : ℕ × ℕ) : ℤ :=
  sgn (l.getD p.2 0 - l.getD p.1 0)

/-- Embeds `calculateKendallTau`: counts concordant, discordant and
singly-tied pairs over all index pairs `i < j`, then returns
`(concordant − discordant) / sqrt(n1 · n2)`, or `0` when an adjusted
denominator vanishes; throws on empty or length-mismatched input. -/
noncomputable def calculateKendallTau (x y : List ℚ) : Except String ℝ :=
  if x.length = 0 ∨ y.length = 0 then
    .error "Cannot calculate Kendall Tau: empty arrays"
  else if x.length ≠ y.length then
    .error "Length mismatch"
  else
    let n := x.length
    let concordant := (ktPairs n).countP
      (fun p => decide (ktSign x p = ktSign y p ∧ ktSign x p ≠ 0))
    let discordant := (ktPairs n).countP
      (fun p => decide (ktSign x p = -(ktSign y p) ∧ ktSign x p ≠ 0))
    let tiesX := (ktPairs n).countP
      (fun p => decide (ktSign x p = 0 ∧ ktSign y p ≠ 0))
    let tiesY := (ktPairs n).countP
      (fun p => decide (ktSign y p = 0 ∧ ktSign x p ≠ 0))
    let n0 := n * (n - 1) / 2
    let n1 : ℤ := (n0 : ℤ) - (tiesX : ℤ)
    let n2 : ℤ := (n0 : ℤ) - (tiesY : ℤ)
    if n1 = 0 ∨ n2 = 0 then .ok 0
    else .ok (((concordant : ℝ) - (discordant : ℝ)) / Real.sqrt ((n1 : ℝ) * (n2 : ℝ)))

/-- Result of `computeEvaluationMetrics` (square roots live in `ℝ`). -/
structure ComputedMetrics where
  mae : ℚ
  rmse : ℝ
  spearmanCorrelation : ℚ
  kendallTau : ℝ

/-- Embeds `computeEvaluationMetrics`: splits the aligned
`(groundTruth, predicted)` pairs and computes the four metrics. The Spearman
correlation is an external library call (`sampleRankCorrelation`), supplied
here as a total oracle `sp`; the JavaScript object literal evaluates `mae`
first, so its failure is the one observed on degenerate input. -/
noncomputable def computeEvaluationMetrics (sp : List ℚ → List ℚ → ℚ)
    (alignedData : List (ℚ × ℚ)) : Except String ComputedMetrics := do
  let groundTruthRanks := alignedData.map (·.1)
  let predictedRanks := alignedData.map (·.2)
  let mae ← calculateMAE predictedRanks groundTruthRanks
  let rmse ← calculateRMSE predictedRanks groundTruthRanks
  let kendallTau ← calculateKendallTau groundTruthRanks predictedRanks
  pure ⟨mae, rmse, sp groundTruthRanks predictedRanks, kendallTau⟩

/-- Modelled from the spec wording of the Kendall-Tau formula: the set of index
pairs `(i, j)` with `i < j < n`. -/
def ktPairFinset (n : ℕ) : Finset (ℕ × ℕ) :=
  (Finset.range n ×ˢ Finset.range n).filter (fun p => p.1 < p.2)

/-- Pairs where the sign of `x_j − x_i` equals the sign of `y_j − y_i` and both
are non-zero (the claim's concordant pairs). -/
def concordantPairs (x y : List ℚ) : Finset (ℕ × ℕ) :=
  (ktPairFinset x.length).filter (fun p => ktSign x p = ktSign y p ∧ ktSign x p ≠ 0)

/-- Pairs where the signs are opposite and non-zero (the claim's discordant
pairs). -/
def discordantPairs (x y : List ℚ) : Finset (ℕ × ℕ) :=
  (ktPairFinset x.length).filter (fun p => ktSign x p = -(ktSign y p) ∧ ktSign x p ≠ 0)

/-- Pairs tied only in `x`. -/
def tiedOnlyXPairs (x y : List ℚ) : Finset (ℕ × ℕ) :=
  (ktPairFinset x.length).filter (fun p => ktSign x p = 0 ∧ ktSign y p ≠ 0)

/-- Pairs tied only in `y`. -/
def tiedOnlyYPairs (x y : List ℚ) : Finset (ℕ × ℕ) :=
  (ktPairFinset x.length).filter (fun p => ktSign y p = 0 ∧ ktSign x p ≠ 0)

/-- The Kendall-Tau value as the claim words it: with `n0 = n(n−1)/2`,
`n1 = n0 − #(pairs tied only in x)`, `n2 = n0 − #(pairs tied only in y)`,
the value is `0` when `n1 = 0` or `n2 = 0` and otherwise
`(concordant − discordant) / sqrt(n1 · n2)`, the pair counts taken as
cardinalities of the sign-condition pair sets. -/
noncomputable def ktSpecValue (x y : List ℚ) : ℝ :=
  let n := x.length
  let n0 := n * (n - 1) / 2
  let n1 : ℤ := (n0 : ℤ) - ((tiedOnlyXPairs x y).card : ℤ)
  let n2 : ℤ := (n0 : ℤ) - ((tiedOnlyYPairs x y).card : ℤ)
  if n1 = 0 ∨ n2 = 0 then 0
  else (((concordantPairs x y).card : ℝ) - ((discordantPairs x y).card : ℝ)) /
    Real.sqrt ((n1 : ℝ) * (n2 : ℝ))

end EvaluationService

namespace PromptOptimization

/-- Constant `CONVERGENCE_THRESHOLD` of `prompt-optimization.service.ts`. -/
def CONVERGENCE_THRESHOLD : ℚ := 1 / 100

/-- Constant `MIN_ITERATIONS_BEFORE_CONVERGENCE`. -/
def MIN_ITERATIONS_BEFORE_CONVERGENCE : ℕ := 2

/-- Embeds `checkConvergence`: true when the best-Kendall improvement is below
the threshold and the (zero-based) iteration index is strictly greater than
`MIN_ITERATIONS_BEFORE_CONVERGENCE`. -/
def checkConvergence (newBest previousBest : Candidate) (iteration : ℕ) : Bool :=
  decide (newBest.kendallTau - previousBest.kendallTau < CONVERGENCE_THRESHOLD) &&
    decide (iteration > MIN_ITERATIONS_BEFORE_CONVERGENCE)

/-- Embeds the sort comparator of `updateBeam`:
`(b.kendallTau − a.kendallTau) || (b.spearmanCorrelation − a.spearmanCorrelation)
|| (a.mae − b.mae)`, where JavaScript `||` yields the first non-zero value. -/
def candCompare (a b : Candidate) : ℚ :=
  if b.kendallTau - a.kendallTau ≠ 0 then b.kendallTau - a.kendallTau
  else if b.spearmanCorrelation - a.spearmanCorrelation ≠ 0 then
    b.spearmanCorrelation - a.spearmanCorrelation
  else a.mae - b.mae

/-- The order produced by the comparator: `a` sorts before or equal to `b`. -/
def candLE (a b : Candidate) : Bool :=
  decide (candCompare a b ≤ 0)

/-- Embeds the beam update of `updateBeam`: merge the existing beam with the
newly evaluated candidates, sort by the comparator, keep the top `beamWidth`.
(The trajectory bookkeeping on `allCandidates` does not affect the returned
beam and is not modelled here.) -/
def updateBeam (beam inMemoryCandidates : List Candidate) (beamWidth : ℕ) : List Candidate :=
  ((beam ++ inMemoryCandidates).mergeSort candLE).take beamWidth

/-- Embeds the iteration loop of `runOptimizationLoop` / `runIteration`,
abstracting one iteration's evaluation work into the oracle `stepBest`, which
yields `beam[0]` after the beam update of the given iteration. Returns
`(convergedEarly, finalIteration)` as the source does. -/
def runLoopFrom (stepBest : ℕ → Candidate) (previousBest : Candidate)
    (iteration maxIterations : ℕ) : Bool × ℕ :=
  if h : iteration < maxIterations then
    let newBest := stepBest iteration
    if checkConvergence newBest previousBest iteration then (true, iteration)
    else runLoopFrom stepBest newBest (iteration + 1) maxIterations
  else (false, maxIterations)
termination_by maxIterations - iteration
decreasing_by omega

/-- The loop started at iteration 0 from the seed candidate. -/
def runOptimizationLoop (stepBest : ℕ → Candidate) (seed : Candidate)
    (maxIterations : ℕ) : Bool × ℕ :=
  runLoopFrom stepBest seed 0 maxIterations

/-- Durable optimization-run record, the fields touched by
`completeOptimizationRun`. -/
structure OptimizationRunRecord where
  status : String
  bestPromptId : Option String
  totalIterations : ℕ
  totalPromptsGenerated : ℕ
  improvementPercentage : Option ℚ
deriving DecidableEq, Repr

/-- Embeds `completeOptimizationRun`: marks the run completed and records
`improvementPercentage = (best.kendallTau − baseline.kendallTau) /
|baseline.kendallTau| × 100`, or `0` when the baseline Kendall is zero. -/
def completeOptimizationRun (bestPromptId : String)
    (bestMetrics baselineMetrics : EvaluationMetrics)
    (totalIterations totalPromptsGenerated : ℕ) : OptimizationRunRecord :=
  let improvementPct : ℚ :=
    if baselineMetrics.kendallTau ≠ 0 then
      (bestMetrics.kendallTau - baselineMetrics.kendallTau) / |baselineMetrics.kendallTau| * 100
    else 0
  { status := "completed"
    bestPromptId := some bestPromptId
    totalIterations := totalIterations
    totalPromptsGenerated := totalPromptsGenerated
    improvementPercentage := some improvementPct }

/-- Embeds the improvement percentage recomputed by `finalizeOptimization` for
its return value (the same formula written a second time in the source). -/
def finalizeImprovementPct (bestKendall baselineKendall : ℚ) : ℚ :=
  if baselineKendall ≠ 0 then (bestKendall - baselineKendall) / |baselineKendall| * 100
  else 0

end PromptOptimization

namespace QualificationAgent

/-- A lead as input to qualification; only the stable identifier participates
in the missing-item logic (the descriptive fields feed prompt text only). -/
structure QualificationLead where
  id : String
deriving DecidableEq, Repr

/-- One qualification decision `{leadId, qualified, reasoning}`. -/
structure Qualification where
  leadId : String
  qualified : Bool
  reasoning : String
deriving DecidableEq, Repr

/-- Embeds `Utils.findMissingItems`: the expected items whose id is absent from
the received decisions. -/
def findMissingItems (expectedItems : List QualificationLead)
    (receivedItems : List Qualification) : List QualificationLead :=
  expectedItems.filter (fun item => !(receivedItems.any (fun r => r.leadId == item.id)))

/-- Embeds `deduplicateQualifications`: keeps only retry decisions whose lead
is not already decided. -/
def deduplicateQualifications (existing newQualifications : List Qualification) :
    List Qualification :=
  newQualifications.filter (fun q => !(existing.any (fun e => e.leadId == q.leadId)))

/-- Embeds `createFallbackQualifications`: a `qualified = false` decision for
every still-missing lead. -/
def createFallbackQualifications (missingLeads : List QualificationLead) : List Qualification :=
  missingLeads.map (fun lead =>
    { leadId := lead.id
      qualified := false
      reasoning := "AI did not return qualification decision after retry" })

/-- The decision list after merging the retry response (the state of the
mutable `qualifications` array after `retryMissingLeads`); `retryResponse` is
the model's answer to the missing subset, `[]` when the retry call failed. -/
def afterRetryQualifications (initial retryResponse : List Qualification) :
    List Qualification :=
  initial ++ deduplicateQualifications initial retryResponse

/-- Embeds `handleIncompleteQualifications`: when decisions are missing, retry
once and append conservative fallbacks for leads still missing afterwards;
returns the final decision list (the source mutates `qualifications` in
place). -/
def handleIncompleteQualifications (leads : List QualificationLead)
    (initial retryResponse : List Qualification) : List Qualification :=
  if (findMissingItems leads initial).isEmpty then initial
  else
    let afterRetry := afterRetryQualifications initial retryResponse
    afterRetry ++ createFallbackQualifications (findMissingItems leads afterRetry)

end QualificationAgent

namespace VariantGenerator

/-- Constant `REQUIRED_PROMPT_PLACEHOLDERS` of the variant generator. -/
def REQUIRED_PROMPT_PLACEHOLDERS : List String :=
  [ "\x7b\x7bPERSONA_SPEC\x7d\x7d"
  , "\x7b\x7bQUALIFIED_LEADS_LIST\x7d\x7d"
  , "\x7b\x7bQUALIFIED_LEADS_COUNT\x7d\x7d"
  , "\x7b\x7bCOMPANY_NAME\x7d\x7d"
  , "\x7b\x7bCOMPANY_DOMAIN\x7d\x7d"
  , "\x7b\x7bEMPLOYEE_RANGE\x7d\x7d"
  , "\x7b\x7bINDUSTRY\x7d\x7d" ]

/-- JavaScript `String.prototype.includes`: substring containment. -/
def stringIncludes (s sub : String) : Bool :=
  decide (sub.data <:+: s.data)

/-- Embeds `findMissingPlaceholders`: the required placeholders not contained
verbatim in the variant text. -/
def findMissingPlaceholders (variant : String) : List String :=
  REQUIRED_PROMPT_PLACEHOLDERS.filter (fun placeholder => !(stringIncludes variant placeholder))

/-- Embeds `filterValidVariants` (with `validateVariantPlaceholders` inlined):
keeps exactly the variants with no missing placeholder. -/
def filterValidVariants (variants : List String) : List String :=
  variants.filter (fun variant => (findMissingPlaceholders variant).length == 0)

end VariantGenerator

namespace RankingAgent

/-- A lead as input to ranking; only the identifier and company name surface in
the control flow modelled here. -/
structure RankingLead where
  id : String
  companyName : String
deriving DecidableEq, Repr

/-- A pipeline oracle that always fails, standing for a model call or retry
pipeline that throws. -/
def failingPipeline : List RankingLead → Except String (List RankingEntry) :=
  fun _ => .error "model failure"

/-- Embeds `rankQualifiedLeads`: an empty batch short-circuits to `[]` without
any model call; otherwise the whole pipeline (`performRanking`: template
substitution, model call, validation, missing-item retry — here an oracle,
fallible as `Except`) runs inside a `try`/`catch` whose handler returns `[]`. -/
def rankQualifiedLeads (leads : List RankingLead)
    (performRanking : List RankingLead → Except String (List RankingEntry)) :
    List RankingEntry :=
  if leads.length = 0 then []
  else
    match performRanking leads with
    | .ok result => result
    | .error _ => []

end RankingAgent

/-- Candidate with a given Kendall value and neutral remaining fields, for
concrete scenarios. -/
def mkCand (kendall : ℚ) : Candidate :=
  { id := none
    promptText := ""
    parentVersionId := ""
    rankings := []
    mae := 0
    rmse := 0
    spearmanCorrelation := 0
    kendallTau := kendall }

/-- Per-iteration best candidates realising the spec's convergence scenario:
best Kendall values 0.60, 0.70, 0.705 at iterations 0, 1, 2 (and the best
staying at 0.705 afterwards). -/
def scenarioStep : ℕ → Candidate := fun i =>
  if i = 0 then mkCand (60 / 100)
  else if i = 1 then mkCand (70 / 100)
  else mkCand (705 / 1000)

/-- Candidate A of the tie-break scenario: kendall 0.8, spearman 0.7, mae 2.0. -/
def candA : Candidate :=
  { id := none
    promptText := "A"
    parentVersionId := ""
    rankings := []
    mae := 2
    rmse := 1
    spearmanCorrelation := 7 / 10
    kendallTau := 8 / 10 }

/-- Candidate B of the tie-break scenario: kendall 0.8, spearman 0.7, mae 1.5. -/
def candB : Candidate :=
  { id := none
    promptText := "B"
    parentVersionId := ""
    rankings := []
    mae := 3 / 2
    rmse := 5
    spearmanCorrelation := 7 / 10
    kendallTau := 8 / 10 }

/-- An early valid ranking entry for lead "a". -/
def rankA1 : RankingEntry := { leadId := "a", rank := 1, reasoning := "first valid entry" }

/-- A later duplicate ranking entry for the same lead "a". -/
def rankA2 : RankingEntry := { leadId := "a", rank := 2, reasoning := "later duplicate" }

/-- A qualification batch of ten leads. -/
def exampleLeads : List QualificationAgent.QualificationLead :=
  [⟨"l1"⟩, ⟨"l2"⟩, ⟨"l3"⟩, ⟨"l4"⟩, ⟨"l5"⟩, ⟨"l6"⟩, ⟨"l7"⟩, ⟨"l8"⟩, ⟨"l9"⟩, ⟨"l10"⟩]

/-- An initial model response deciding only the first eight leads. -/
def exampleInitial : List QualificationAgent.Qualification :=
  [ ⟨"l1", true, "ok"⟩, ⟨"l2", false, "no"⟩, ⟨"l3", true, "ok"⟩, ⟨"l4", true, "ok"⟩
  , ⟨"l5", false, "no"⟩, ⟨"l6", true, "ok"⟩, ⟨"l7", true, "ok"⟩, ⟨"l8", false, "no"⟩ ]

/-- A retry response adding a ninth decision, leaving lead "l10" undecided. -/
def exampleRetry : List QualificationAgent.Qualification :=
  [⟨"l9", true, "retry"⟩]

/-- A variant text containing all seven required placeholders. -/
def validVariantText : String :=
  "You are a ranking engine for \x7b\x7bCOMPANY_NAME\x7d\x7d (\x7b\x7bCOMPANY_DOMAIN\x7d\x7d, \x7b\x7bEMPLOYEE_RANGE\x7d\x7d, \x7b\x7bINDUSTRY\x7d\x7d). Use \x7b\x7bPERSONA_SPEC\x7d\x7d to rank the \x7b\x7bQUALIFIED_LEADS_COUNT\x7d\x7d leads: \x7b\x7bQUALIFIED_LEADS_LIST\x7d\x7d"

/-- The same variant text with the INDUSTRY placeholder missing. -/
def invalidVariantText : String :=
  "You are a ranking engine for \x7b\x7bCOMPANY_NAME\x7d\x7d (\x7b\x7bCOMPANY_DOMAIN\x7d\x7d, \x7b\x7bEMPLOYEE_RANGE\x7d\x7d). Use \x7b\x7bPERSONA_SPEC\x7d\x7d to rank the \x7b\x7bQUALIFIED_LEADS_COUNT\x7d\x7d leads: \x7b\x7bQUALIFIED_LEADS_LIST\x7d\x7d"

/-- A single-lead batch for the duplicate-decision scenario. -/
def dupLead : QualificationAgent.QualificationLead := ⟨"a"⟩

/-- An initial model response containing two decisions for the same lead. -/
def dupInitial : List QualificationAgent.Qualification :=
  [⟨"a", true, "first decision"⟩, ⟨"a", false, "duplicate decision"⟩]

-- ===========================================================================
-- Theorems
-- ===========================================================================

section ClaimC1

open PromptOptimization

/-- Convergence is impossible while the iteration index is at most
`MIN_ITERATIONS_BEFORE_CONVERGENCE`. -/
theorem checkConvergence_early_false (newBest previousBest : Candidate) (i : ℕ)
    (hi : i ≤ MIN_ITERATIONS_BEFORE_CONVERGENCE) :
    checkConvergence newBest previousBest i = false := by
  have h : decide (i > MIN_ITERATIONS_BEFORE_CONVERGENCE) = false := by
    simp only [decide_eq_false_iff_not]
    omega
  simp [checkConvergence, h]

/-- Evaluation of the loop on the spec's convergence scenario: the run does not
stop at iteration 2 and converges at iteration 3. -/
theorem scenario_loop_eval :
    runOptimizationLoop scenarioStep (mkCand (60 / 100)) 5 = (true, 3) := by
  have c3 : checkConvergence (scenarioStep 3) (scenarioStep 2) 3 = true := by
    simp only [checkConvergence, scenarioStep, mkCand, CONVERGENCE_THRESHOLD,
      MIN_ITERATIONS_BEFORE_CONVERGENCE]
    norm_num
  have e3 : runLoopFrom scenarioStep (scenarioStep 2) 3 5 = (true, 3) := by
    rw [runLoopFrom, dif_pos (by norm_num : (3 : ℕ) < 5)]
    simp [c3]
  have e2 : runLoopFrom scenarioStep (scenarioStep 1) 2 5 = (true, 3) := by
    rw [runLoopFrom, dif_pos (by norm_num : (2 : ℕ) < 5)]
    simp [checkConvergence_early_false _ _ 2 (by decide), e3]
  have e1 : runLoopFrom scenarioStep (scenarioStep 0) 1 5 = (true, 3) := by
    rw [runLoopFrom, dif_pos (by norm_num : (1 : ℕ) < 5)]
    simp [checkConvergence_early_false _ _ 1 (by decide), e2]
  have e0 : runLoopFrom scenarioStep (mkCand (60 / 100)) 0 5 = (true, 3) := by
    rw [runLoopFrom, dif_pos (by norm_num : (0 : ℕ) < 5)]
    simp [checkConvergence_early_false _ _ 0 (by decide), e1]
  simpa [runOptimizationLoop] using e0

/-- Claim C1, counterexample: at iteration index 2 with best Kendall going from
0.70 to 0.705 (improvement 0.005 < 0.01), `checkConvergence` is `false` — the
source requires the index to be strictly greater than 2 — and on the spec's
scenario the run does not stop after iteration 2. -/
theorem checkConvergence_counterexample :
    checkConvergence (mkCand (705 / 1000)) (mkCand (70 / 100)) 2 = false ∧
    runOptimizationLoop scenarioStep (mkCand (60 / 100)) 5 ≠ (true, 2) := by
  refine ⟨checkConvergence_early_false _ _ 2 (by decide), ?_⟩
  rw [scenario_loop_eval]
  simp

/-- Claim C1, amended: the optimizer stops with CONVERGED exactly when the
best-Kendall improvement is below 0.01 and the zero-based iteration index is
strictly greater than 2 (so convergence is possible only from the fourth
iteration onwards); on best-Kendall values 0.60, 0.70, 0.705 at iterations
0, 1, 2 (the best staying at 0.705 afterwards) the run continues past
iteration 2 and converges at iteration 3. -/
theorem checkConvergence_spec :
    (∀ (newBest previousBest : Candidate) (iteration : ℕ),
      checkConvergence newBest previousBest iteration = true ↔
        (newBest.kendallTau - previousBest.kendallTau < CONVERGENCE_THRESHOLD ∧
          MIN_ITERATIONS_BEFORE_CONVERGENCE < iteration)) ∧
    runOptimizationLoop scenarioStep (mkCand (60 / 100)) 5 = (true, 3) := by
  refine ⟨?_, scenario_loop_eval⟩
  intro newBest previousBest iteration
  simp [checkConvergence]

end ClaimC1

section ClaimC3

open PromptOptimization

/-- Claim C3: the beam comparator orders candidates by Kendall descending, then
Spearman descending, then MAE ascending; it never reads RMSE; and candidate
B{kendall 0.8, spearman 0.7, mae 1.5} sorts strictly before
A{kendall 0.8, spearman 0.7, mae 2.0}. -/
theorem tieBreak_order_spec :
    (∀ a b : Candidate, candCompare a b < 0 ↔
      (b.kendallTau < a.kendallTau ∨
        (b.kendallTau = a.kendallTau ∧ b.spearmanCorrelation < a.spearmanCorrelation) ∨
        (b.kendallTau = a.kendallTau ∧ b.spearmanCorrelation = a.spearmanCorrelation ∧
          a.mae < b.mae))) ∧
    (∀ (a b : Candidate) (r₁ r₂ : ℚ),
      candCompare { a with rmse := r₁ } { b with rmse := r₂ } = candCompare a b) ∧
    candCompare candB candA < 0 := by
  refine ⟨?_, fun a b r₁ r₂ => rfl, ?_⟩
  · intro a b
    unfold candCompare
    rcases eq_or_ne b.kendallTau a.kendallTau with hk | hk
    · have h1 : ¬(b.kendallTau - a.kendallTau ≠ 0) := by rw [hk, sub_self]; simp
      rcases eq_or_ne b.spearmanCorrelation a.spearmanCorrelation with hs | hs
      · have h2 : ¬(b.spearmanCorrelation - a.spearmanCorrelation ≠ 0) := by
          rw [hs, sub_self]; simp
        rw [if_neg h1, if_neg h2]
        constructor
        · intro h
          exact Or.inr (Or.inr ⟨hk, hs, by linarith⟩)
        · rintro (h | ⟨h₁, h₂⟩ | ⟨h₁, h₂, h₃⟩) <;> linarith
      · have h2 : b.spearmanCorrelation - a.spearmanCorrelation ≠ 0 := sub_ne_zero.mpr hs
        rw [if_neg h1, if_pos h2]
        constructor
        · intro h
          exact Or.inr (Or.inl ⟨hk, by linarith⟩)
        · rintro (h | ⟨h₁, h₂⟩ | ⟨h₁, h₂, h₃⟩)
          · linarith
          · linarith
          · exact absurd h₂ hs
    · rw [if_pos (sub_ne_zero.mpr hk)]
      constructor
      · intro h
        exact Or.inl (by linarith)
      · rintro (h | ⟨h₁, h₂⟩ | ⟨h₁, h₂, h₃⟩)
        · linarith
        · exact absurd h₁ hk
        · exact absurd h₁ hk
  · norm_num [candCompare, candA, candB]

end ClaimC3

section ClaimC9

open PromptOptimization

/-- Claim C9: the completed run records
`improvementPercentage = (best.kendallTau − seed.kendallTau) / |seed.kendallTau| × 100`,
`0` when the seed Kendall is exactly zero, and the value agrees with the
improvement recomputed by `finalizeOptimization` for its return value. -/
theorem improvementPercentage_spec :
    ∀ (bestPromptId : String) (best baseline : EvaluationMetrics)
      (totalIterations totalPromptsGenerated : ℕ),
      (completeOptimizationRun bestPromptId best baseline totalIterations
          totalPromptsGenerated).status = "completed" ∧
      (baseline.kendallTau ≠ 0 →
        (completeOptimizationRun bestPromptId best baseline totalIterations
            totalPromptsGenerated).improvementPercentage =
          some ((best.kendallTau - baseline.kendallTau) / |baseline.kendallTau| * 100)) ∧
      (baseline.kendallTau = 0 →
        (completeOptimizationRun bestPromptId best baseline totalIterations
            totalPromptsGenerated).improvementPercentage = some 0) ∧
      (completeOptimizationRun bestPromptId best baseline totalIterations
          totalPromptsGenerated).improvementPercentage =
        some (finalizeImprovementPct best.kendallTau baseline.kendallTau) := by
  intro bestPromptId best baseline ti tp
  refine ⟨rfl, ?_, ?_, ?_⟩
  · intro h
    simp [completeOptimizationRun, h]
  · intro h
    simp [completeOptimizationRun, h]
  · simp [completeOptimizationRun, finalizeImprovementPct]

/-- Witness for C9 at the spec's end-to-end numbers: seed Kendall 0.65, best
Kendall 0.75, giving improvement (0.1 / 0.65) × 100 = 200/13 ≈ 15.4. -/
theorem improvementPercentage_spec_witness :
    ((13 : ℚ) / 20 ≠ 0) ∧
    (PromptOptimization.completeOptimizationRun "best"
        ⟨21 / 10, 2, 1 / 2, 3 / 4⟩ ⟨5 / 2, 3, 2 / 5, 13 / 20⟩ 1 5).improvementPercentage =
      some ((3 / 4 - 13 / 20) / |(13 : ℚ) / 20| * 100) :=
  ⟨by norm_num,
    (improvementPercentage_spec "best" ⟨21 / 10, 2, 1 / 2, 3 / 4⟩ ⟨5 / 2, 3, 2 / 5, 13 / 20⟩
      1 5).2.1 (by norm_num)⟩

end ClaimC9

section ClaimC10

open RankingAgent

/-- Claim C10: `rankQualifiedLeads` never raises — an empty batch returns `[]`
for every pipeline (so no model call can be observed), a throwing pipeline is
caught and yields `[]`, and in every case the result is either `[]` or the
pipeline's successful output. -/
theorem rankQualifiedLeads_never_raises :
    (∀ performRanking, rankQualifiedLeads [] performRanking = []) ∧
    (∀ leads performRanking e, performRanking leads = .error e →
      rankQualifiedLeads leads performRanking = []) ∧
    (∀ leads performRanking,
      rankQualifiedLeads leads performRanking = [] ∨
      ∃ result, performRanking leads = .ok result ∧
        rankQualifiedLeads leads performRanking = result) := by
  refine ⟨fun performRanking => rfl, ?_, ?_⟩
  · intro leads performRanking e h
    unfold rankQualifiedLeads
    rcases Nat.eq_zero_or_pos leads.length with hl | hl
    · simp [hl]
    · rw [if_neg (by omega), h]
  · intro leads performRanking
    unfold rankQualifiedLeads
    rcases Nat.eq_zero_or_pos leads.length with hl | hl
    · simp [hl]
    · rw [if_neg (by omega)]
      cases h : performRanking leads with
      | ok result => exact Or.inr ⟨result, rfl, rfl⟩
      | error e => exact Or.inl rfl

/-- Witness for C10: a one-lead batch with a throwing pipeline yields `[]`. -/
theorem rankQualifiedLeads_never_raises_witness :
    RankingAgent.failingPipeline [⟨"l1", "acme"⟩] = .error "model failure" ∧
    RankingAgent.rankQualifiedLeads [⟨"l1", "acme"⟩] RankingAgent.failingPipeline = [] :=
  ⟨rfl, rankQualifiedLeads_never_raises.2.1 [⟨"l1", "acme"⟩] RankingAgent.failingPipeline
    "model failure" rfl⟩

end ClaimC10

section ClaimC6

open EvaluationService

/-- Claim C6: MAE, RMSE and Kendall's Tau each fail (return an error rather
than a value) on empty or length-mismatched inputs, and metric computation on
empty aligned data — zero evaluation coverage — fails loudly instead of
returning degenerate metrics. -/
theorem metricErrorHandling_spec :
    (∀ predicted actual : List ℚ,
      predicted.length = 0 ∨ actual.length = 0 ∨ predicted.length ≠ actual.length →
        (calculateMAE predicted actual).isOk = false ∧
        (calculateRMSE predicted actual).isOk = false ∧
        (calculateKendallTau predicted actual).isOk = false) ∧
    (∀ sp, (computeEvaluationMetrics sp []).isOk = false) := by
  constructor
  · intro predicted actual h
    refine ⟨?_, ?_, ?_⟩
    · unfold calculateMAE
      split_ifs with h1 h2
      · rfl
      · rfl
      · tauto
    · unfold calculateRMSE
      split_ifs with h1 h2
      · rfl
      · rfl
      · tauto
    · unfold calculateKendallTau
      split_ifs with h1 h2
      · rfl
      · rfl
      · tauto
  · intro sp
    rfl

/-- Witness for C6: the empty-against-singleton inputs make all three
calculators fail, and empty aligned data makes the metric aggregation fail. -/
theorem metricErrorHandling_spec_witness :
    (([] : List ℚ).length = 0 ∨ ([1] : List ℚ).length = 0 ∨
      ([] : List ℚ).length ≠ ([1] : List ℚ).length) ∧
    ((EvaluationService.calculateMAE [] [1]).isOk = false ∧
      (EvaluationService.calculateRMSE [] [1]).isOk = false ∧
      (EvaluationService.calculateKendallTau [] [1]).isOk = false) ∧
    (EvaluationService.computeEvaluationMetrics (fun _ _ => 0) []).isOk = false :=
  ⟨Or.inl rfl, metricErrorHandling_spec.1 [] [1] (Or.inl rfl),
    metricErrorHandling_spec.2 (fun _ _ => 0)⟩

end ClaimC6

section ClaimC8

open VariantGenerator

set_option maxRecDepth 16384 in
/-- Claim C8: the variant filter keeps exactly the variants containing every
required placeholder verbatim (a variant missing any placeholder is dropped,
never repaired), the result is a sublist of the input (kept variants are
unmodified), and on `[validVariantText, invalidVariantText]` exactly one
variant survives. -/
theorem filterValidVariants_spec :
    (∀ variants : List String, filterValidVariants variants =
      variants.filter (fun variant =>
        REQUIRED_PROMPT_PLACEHOLDERS.all (fun placeholder =>
          stringIncludes variant placeholder))) ∧
    (∀ variants : List String, (filterValidVariants variants).Sublist variants) ∧
    (filterValidVariants [validVariantText, invalidVariantText]).length = 1 := by
  have hfilter : ∀ variants : List String, filterValidVariants variants =
      variants.filter (fun variant =>
        REQUIRED_PROMPT_PLACEHOLDERS.all (fun placeholder =>
          stringIncludes variant placeholder)) := by
    intro variants
    unfold filterValidVariants
    apply List.filter_congr
    intro v _
    rw [Bool.eq_iff_iff]
    simp [findMissingPlaceholders, List.length_eq_zero, List.filter_eq_nil_iff]
  refine ⟨hfilter, ?_, ?_⟩
  · intro variants
    unfold filterValidVariants
    exact List.filter_sublist variants
  · decide

end ClaimC8

section ClaimC2

open EvaluationService

/-- Appending at the front pushes `getLast?` into an `Option.or` fallback. -/
theorem getLast?_cons_or {α : Type} (a : α) (l : List α) :
    (a :: l).getLast? = l.getLast?.or (some a) := by
  induction l generalizing a with
  | nil => rfl
  | cons b t ih =>
    rw [List.getLast?_cons_cons, ih b]
    cases t.getLast? <;> simp

/-- Value replacement inside the JavaScript map: looking up `k` after replacing
every entry keyed `r.leadId` finds `r` iff `k` is `r.leadId` and was present. -/
theorem find?_replace (m : List RankingEntry) (r : RankingEntry) (k : String) :
    ((m.map (fun e => if e.leadId == r.leadId then r else e)).find?
        (fun e => e.leadId == k)) =
      if r.leadId = k then
        (if m.any (fun e => e.leadId == r.leadId) then some r else none)
      else m.find? (fun e => e.leadId == k) := by
  induction m with
  | nil => by_cases h : r.leadId = k <;> simp [h]
  | cons e m ih =>
    rw [List.map_cons]
    by_cases he : e.leadId = r.leadId
    · rw [if_pos (by simpa using he)]
      by_cases hrk : r.leadId = k
      · rw [List.find?_cons_of_pos _ (by simpa using hrk), if_pos hrk,
          if_pos (List.any_eq_true.mpr ⟨e, List.mem_cons_self e m, by simpa using he⟩)]
      · rw [List.find?_cons_of_neg _ (by simpa using hrk), ih, if_neg hrk,
          List.find?_cons_of_neg _ (by simp [he, hrk]), if_neg hrk]
    · rw [if_neg (by simpa using he)]
      by_cases hek : e.leadId = k
      · by_cases hrk : r.leadId = k
        · exact absurd (hek.trans hrk.symm) he
        · rw [List.find?_cons_of_pos _ (by simpa using hek), if_neg hrk,
            List.find?_cons_of_pos _ (by simpa using hek)]
      · have hany : ((e :: m).any fun x => x.leadId == r.leadId) =
            (m.any fun x => x.leadId == r.leadId) := by
          rw [List.any_cons]
          simp [he]
        rw [List.find?_cons_of_neg _ (by simpa using hek), ih,
          List.find?_cons_of_neg _ (by simpa using hek), hany]

/-- One `Map.set` step: the lookup for `r.leadId` now yields `r`, all other
lookups are unchanged. -/
theorem lookupId_mapSet (m : List RankingEntry) (r : RankingEntry) (k : String) :
    lookupId (mapSet m r) k = if r.leadId = k then some r else lookupId m k := by
  unfold mapSet lookupId
  by_cases hany : m.any (fun e => e.leadId == r.leadId)
  · simp only [if_pos hany, find?_replace, hany, if_true]
  · rw [if_neg hany, List.find?_append]
    by_cases hrk : r.leadId = k
    · have hmn : m.find? (fun e => e.leadId == k) = none := by
        rw [List.find?_eq_none]
        intro e hem
        intro hcon
        apply hany
        refine List.any_eq_true.mpr ⟨e, hem, ?_⟩
        have : e.leadId = k := by simpa using hcon
        simp [this, hrk]
      rw [hmn, if_pos hrk, List.find?_cons_of_pos _ (by simpa using hrk)]
      rfl
    · rw [if_neg hrk, List.find?_cons_of_neg _ (by simpa using hrk)]
      simp

/-- Folding `Map.set` over a list: a lookup yields the last entry of the list
with that key, falling back to the initial map. -/
theorem lookupId_foldl (l : List RankingEntry) (m : List RankingEntry) (k : String) :
    lookupId (l.foldl mapSet m) k =
      ((l.filter (fun e => e.leadId == k)).getLast?).or (lookupId m k) := by
  induction l generalizing m with
  | nil => simp
  | cons r l ih =>
    rw [List.foldl_cons, ih]
    by_cases hr : r.leadId = k
    · have hfc : List.filter (fun e => e.leadId == k) (r :: l) =
          r :: List.filter (fun e => e.leadId == k) l := by
        rw [List.filter_cons]
        simp [hr]
      rw [hfc, getLast?_cons_or, lookupId_mapSet, if_pos hr, Option.or_assoc]
      simp
    · have hfc : List.filter (fun e => e.leadId == k) (r :: l) =
          List.filter (fun e => e.leadId == k) l := by
        rw [List.filter_cons]
        simp [hr]
      rw [hfc, lookupId_mapSet, if_neg hr]

/-- A `Map.set` step preserves the key list up to appending a fresh key. -/
theorem mapSet_map_leadId (m : List RankingEntry) (r : RankingEntry) :
    (mapSet m r).map (fun e => e.leadId) =
      if m.any (fun e => e.leadId == r.leadId) then m.map (fun e => e.leadId)
      else m.map (fun e => e.leadId) ++ [r.leadId] := by
  unfold mapSet
  by_cases hany : m.any (fun e => e.leadId == r.leadId)
  · rw [if_pos hany, if_pos hany, List.map_map]
    apply List.map_congr_left
    intro e _
    by_cases h : e.leadId = r.leadId <;> simp [h]
  · rw [if_neg hany, if_neg hany]
    simp

/-- `Map.set` keeps the keys of the map free of duplicates. -/
theorem mapSet_ids_nodup (m : List RankingEntry) (r : RankingEntry)
    (h : (m.map (fun e => e.leadId)).Nodup) :
    ((mapSet m r).map (fun e => e.leadId)).Nodup := by
  rw [mapSet_map_leadId]
  by_cases hany : m.any (fun e => e.leadId == r.leadId)
  · simpa [hany] using h
  · rw [if_neg hany]
    rw [List.nodup_append]
    refine ⟨h, List.nodup_singleton _, ?_⟩
    intro s hs hs'
    simp only [List.mem_singleton] at hs'
    subst hs'
    rcases List.mem_map.mp hs with ⟨e, hem, hid⟩
    exact absurd (List.any_eq_true.mpr ⟨e, hem, by simp [hid]⟩) hany

/-- Folding `Map.set` keeps keys free of duplicates. -/
theorem foldl_mapSet_ids_nodup (l : List RankingEntry) (m : List RankingEntry)
    (h : (m.map (fun e => e.leadId)).Nodup) :
    ((l.foldl mapSet m).map (fun e => e.leadId)).Nodup := by
  induction l generalizing m with
  | nil => exact h
  | cons r l ih => exact ih _ (mapSet_ids_nodup m r h)

/-- Claim C2 (amended): deduplication keeps, for each entityId, the LAST valid
entry (a later duplicate overwrites an earlier one — JavaScript `Map.set`
semantics), not the first; entries whose entityId is not in the ground-truth
set are discarded; and the result holds at most one entry per entityId. -/
theorem deduplicateRankings_spec :
    ∀ (allRankings : List RankingEntry) (validEvalLeadIds : List String),
      ((deduplicateRankings allRankings validEvalLeadIds).map (fun r => r.leadId)).Nodup ∧
      ∀ k : String,
        lookupId (deduplicateRankings allRankings validEvalLeadIds) k =
          ((allRankings.filter (fun r => validEvalLeadIds.contains r.leadId)).filter
            (fun r => r.leadId == k)).getLast? := by
  intro allRankings validEvalLeadIds
  constructor
  · exact foldl_mapSet_ids_nodup _ [] (by simp)
  · intro k
    rw [deduplicateRankings, buildRankingMap, lookupId_foldl]
    simp [lookupId]

/-- Claim C2, counterexample: with two valid entries for lead "a", the
deduplication keeps the LATER one, not the first — first-valid-wins is false. -/
theorem deduplicateRankings_counterexample :
    EvaluationService.deduplicateRankings [rankA1, rankA2] ["a"] = [rankA2] ∧
    rankA2 ≠ rankA1 := by
  constructor <;> decide

end ClaimC2

section ClaimC7

open QualificationAgent

/-- When no decision is missing, every input lead is covered. -/
theorem any_of_missing_isEmpty {leads : List QualificationLead} {qs : List Qualification}
    (h : (findMissingItems leads qs).isEmpty) {lead : QualificationLead} (hl : lead ∈ leads) :
    qs.any (fun q => q.leadId == lead.id) = true := by
  rw [List.isEmpty_iff] at h
  unfold findMissingItems at h
  have := List.filter_eq_nil_iff.mp h lead hl
  simpa using this

/-- A lead absent from the missing list is covered. -/
theorem any_of_not_mem_missing {leads : List QualificationLead} {qs : List Qualification}
    {lead : QualificationLead} (hl : lead ∈ leads) (h : lead ∉ findMissingItems leads qs) :
    qs.any (fun q => q.leadId == lead.id) = true := by
  unfold findMissingItems at h
  by_contra hc
  exact h (List.mem_filter.mpr ⟨hl, by simpa using hc⟩)

/-- A lead in the missing list is not covered. -/
theorem not_any_of_mem_missing {leads : List QualificationLead} {qs : List Qualification}
    {lead : QualificationLead} (h : lead ∈ findMissingItems leads qs) :
    qs.any (fun q => q.leadId == lead.id) = false := by
  unfold findMissingItems at h
  have := (List.mem_filter.mp h).2
  simpa using this

/-- The final decision list covers every input lead. -/
theorem handleIncomplete_covers (leads : List QualificationLead)
    (initial retryResponse : List Qualification) (lead : QualificationLead)
    (hl : lead ∈ leads) :
    (handleIncompleteQualifications leads initial retryResponse).any
      (fun q => q.leadId == lead.id) = true := by
  unfold handleIncompleteQualifications
  by_cases hmiss : (findMissingItems leads initial).isEmpty
  · rw [if_pos hmiss]
    exact any_of_missing_isEmpty hmiss hl
  · rw [if_neg hmiss, List.any_append]
    by_cases hstill : lead ∈ findMissingItems leads (afterRetryQualifications initial retryResponse)
    · have hb : (createFallbackQualifications (findMissingItems leads
          (afterRetryQualifications initial retryResponse))).any
          (fun q => q.leadId == lead.id) = true := by
        refine List.any_eq_true.mpr
          ⟨⟨lead.id, false, "AI did not return qualification decision after retry"⟩, ?_, by simp⟩
        unfold createFallbackQualifications
        exact List.mem_map.mpr ⟨lead, hstill, rfl⟩
      rw [hb, Bool.or_true]
    · rw [any_of_not_mem_missing hl hstill, Bool.true_or]

/-- With duplicate-free model responses and a duplicate-free batch, the final
decision list has pairwise distinct leadIds. -/
theorem handleIncomplete_ids_nodup (leads : List QualificationLead)
    (initial retryResponse : List Qualification)
    (h1 : (initial.map (fun q => q.leadId)).Nodup)
    (h2 : (retryResponse.map (fun q => q.leadId)).Nodup)
    (h3 : (leads.map (fun l => l.id)).Nodup) :
    ((handleIncompleteQualifications leads initial retryResponse).map
      (fun q => q.leadId)).Nodup := by
  unfold handleIncompleteQualifications
  by_cases hmiss : (findMissingItems leads initial).isEmpty
  · simpa [hmiss] using h1
  · rw [if_neg hmiss]
    have hAR : ((afterRetryQualifications initial retryResponse).map
        (fun q => q.leadId)).Nodup := by
      unfold afterRetryQualifications deduplicateQualifications
      rw [List.map_append, List.nodup_append]
      refine ⟨h1, h2.sublist ((List.filter_sublist _).map _), ?_⟩
      intro s hs1 hs2
      rcases List.mem_map.mp hs1 with ⟨e, he, rfl⟩
      rcases List.mem_map.mp hs2 with ⟨q, hq, hqe⟩
      have hpred := (List.mem_filter.mp hq).2
      have : initial.any (fun x => x.leadId == q.leadId) = true :=
        List.any_eq_true.mpr ⟨e, he, by simp [hqe]⟩
      simp [this] at hpred
    rw [List.map_append, List.nodup_append]
    refine ⟨hAR, ?_, ?_⟩
    · have hfb : (createFallbackQualifications (findMissingItems leads
          (afterRetryQualifications initial retryResponse))).map (fun q => q.leadId) =
          (findMissingItems leads (afterRetryQualifications initial retryResponse)).map
            (fun l => l.id) := by
        unfold createFallbackQualifications
        rw [List.map_map]
        rfl
      rw [hfb]
      unfold findMissingItems
      exact h3.sublist ((List.filter_sublist _).map _)
    · intro s hs1 hs2
      rcases List.mem_map.mp hs2 with ⟨q, hq, rfl⟩
      rcases List.mem_map.mp hs1 with ⟨e, he, heq⟩
      unfold createFallbackQualifications at hq
      rcases List.mem_map.mp hq with ⟨l', hl', rfl⟩
      unfold findMissingItems at hl'
      have hpred := (List.mem_filter.mp hl').2
      have : (afterRetryQualifications initial retryResponse).any
          (fun x => x.leadId == l'.id) = true :=
        List.any_eq_true.mpr ⟨e, he, by simp [heq]⟩
      simp [this] at hpred

/-- A lead still missing after the retry only ever receives `qualified = false`
in the final decision list. -/
theorem handleIncomplete_missing_false (leads : List QualificationLead)
    (initial retryResponse : List Qualification) (lead : QualificationLead)
    (hl : lead ∈ leads)
    (hmem : lead ∈ findMissingItems leads (afterRetryQualifications initial retryResponse)) :
    ∀ q ∈ handleIncompleteQualifications leads initial retryResponse,
      q.leadId = lead.id → q.qualified = false := by
  intro q hq hid
  unfold handleIncompleteQualifications at hq
  by_cases hmiss : (findMissingItems leads initial).isEmpty
  · exfalso
    rw [if_pos hmiss] at hq
    have hcov := any_of_missing_isEmpty hmiss hl
    have hcov' : (afterRetryQualifications initial retryResponse).any
        (fun x => x.leadId == lead.id) = true := by
      unfold afterRetryQualifications
      rw [List.any_append, hcov, Bool.true_or]
    rw [not_any_of_mem_missing hmem] at hcov'
    exact Bool.false_ne_true hcov'
  · rw [if_neg hmiss] at hq
    rcases List.mem_append.mp hq with hq1 | hq2
    · exfalso
      have : (afterRetryQualifications initial retryResponse).any
          (fun x => x.leadId == lead.id) = true :=
        List.any_eq_true.mpr ⟨q, hq1, by simp [hid]⟩
      rw [not_any_of_mem_missing hmem] at this
      exact Bool.false_ne_true this
    · unfold createFallbackQualifications at hq2
      rcases List.mem_map.mp hq2 with ⟨l', _, rfl⟩
      rfl

/-- Claim C7 (amended): fallback decisions are always `qualified = false`
(never true); every input lead ends up with at least one decision; with
duplicate-free model responses and batch the lead has exactly one decision;
and a lead still missing after the single retry receives only `qualified =
false` decisions. (Without the duplicate-free hypotheses, "exactly one" fails:
the agent never deduplicates the initial model response against itself.) -/
theorem qualificationFallback_spec :
    (∀ missingLeads : List QualificationLead,
      ∀ q ∈ createFallbackQualifications missingLeads, q.qualified = false) ∧
    (∀ (leads : List QualificationLead) (initial retryResponse : List Qualification)
        (lead : QualificationLead), lead ∈ leads →
      (1 ≤ (handleIncompleteQualifications leads initial retryResponse).countP
          (fun q => q.leadId == lead.id)) ∧
      ((initial.map (fun q => q.leadId)).Nodup →
        (retryResponse.map (fun q => q.leadId)).Nodup →
        (leads.map (fun l => l.id)).Nodup →
        (handleIncompleteQualifications leads initial retryResponse).countP
          (fun q => q.leadId == lead.id) = 1) ∧
      (lead ∈ findMissingItems leads (afterRetryQualifications initial retryResponse) →
        ∀ q ∈ handleIncompleteQualifications leads initial retryResponse,
          q.leadId = lead.id → q.qualified = false)) := by
  constructor
  · intro missingLeads q hq
    unfold createFallbackQualifications at hq
    rcases List.mem_map.mp hq with ⟨lead, _, rfl⟩
    rfl
  · intro leads initial retryResponse lead hl
    have hge : 1 ≤ (handleIncompleteQualifications leads initial retryResponse).countP
        (fun q => q.leadId == lead.id) := by
      have := handleIncomplete_covers leads initial retryResponse lead hl
      rcases List.any_eq_true.mp this with ⟨q, hqmem, hqpred⟩
      exact Nat.one_le_iff_ne_zero.mpr (Nat.pos_iff_ne_zero.mp
        (List.countP_pos_iff.mpr ⟨q, hqmem, hqpred⟩))
    refine ⟨hge, ?_, handleIncomplete_missing_false leads initial retryResponse lead hl⟩
    intro h1 h2 h3
    have hnodup := handleIncomplete_ids_nodup leads initial retryResponse h1 h2 h3
    have hle : (handleIncompleteQualifications leads initial retryResponse).countP
        (fun q => q.leadId == lead.id) ≤ 1 := by
      have hcount : (handleIncompleteQualifications leads initial retryResponse).countP
          (fun q => q.leadId == lead.id) =
          ((handleIncompleteQualifications leads initial retryResponse).map
            (fun q => q.leadId)).count lead.id := by
        rw [List.count, List.countP_map]
        rfl
      rw [hcount]
      exact List.nodup_iff_count_le_one.mp hnodup lead.id
    omega

/-- Claim C7, counterexample to "exactly one decision per input lead": when the
initial model response itself contains two decisions for the same lead, both
survive — the agent only deduplicates the retry against the existing list. -/
theorem qualificationFallback_counterexample :
    dupLead ∈ [dupLead] ∧
    (QualificationAgent.handleIncompleteQualifications [dupLead] dupInitial []).countP
      (fun q => q.leadId == dupLead.id) = 2 ∧
    (QualificationAgent.handleIncompleteQualifications [dupLead] dupInitial []).countP
      (fun q => q.leadId == dupLead.id) ≠ 1 := by
  refine ⟨by decide, by decide, by decide⟩

/-- Witness for C7 on the spec's 10/8/9 scenario: lead "l10" is still missing
after the retry, ends with exactly one decision, and that fallback decision is
`qualified = false`. -/
theorem qualificationFallback_spec_witness :
    (⟨"l10"⟩ : QualificationAgent.QualificationLead) ∈ exampleLeads ∧
    (QualificationAgent.handleIncompleteQualifications exampleLeads exampleInitial
      exampleRetry).countP (fun q => q.leadId == "l10") = 1 ∧
    (QualificationAgent.Qualification.mk "l10" false
      "AI did not return qualification decision after retry").qualified = false := by
  refine ⟨by decide, ?_, ?_⟩
  · exact (qualificationFallback_spec.2 exampleLeads exampleInitial exampleRetry ⟨"l10"⟩
      (by decide)).2.1 (by decide) (by decide) (by decide)
  · exact (qualificationFallback_spec.2 exampleLeads exampleInitial exampleRetry ⟨"l10"⟩
      (by decide)).2.2 (by decide)
      (QualificationAgent.Qualification.mk "l10" false
        "AI did not return qualification decision after retry") (by decide) rfl

end ClaimC7

section ClaimC4

open PromptOptimization

/-- Characterisation of a non-positive comparator value: `a` sorts before or
ties with `b`. -/
theorem candCompare_le_iff (a b : Candidate) : candCompare a b ≤ 0 ↔
    (b.kendallTau < a.kendallTau ∨
      (b.kendallTau = a.kendallTau ∧ b.spearmanCorrelation < a.spearmanCorrelation) ∨
      (b.kendallTau = a.kendallTau ∧ b.spearmanCorrelation = a.spearmanCorrelation ∧
        a.mae ≤ b.mae)) := by
  unfold candCompare
  rcases eq_or_ne b.kendallTau a.kendallTau with hk | hk
  · have h1 : ¬(b.kendallTau - a.kendallTau ≠ 0) := by rw [hk, sub_self]; simp
    rcases eq_or_ne b.spearmanCorrelation a.spearmanCorrelation with hs | hs
    · have h2 : ¬(b.spearmanCorrelation - a.spearmanCorrelation ≠ 0) := by
        rw [hs, sub_self]; simp
      rw [if_neg h1, if_neg h2]
      constructor
      · intro h
        exact Or.inr (Or.inr ⟨hk, hs, by linarith⟩)
      · rintro (h | ⟨h₁, h₂⟩ | ⟨h₁, h₂, h₃⟩) <;> linarith
    · have h2 : b.spearmanCorrelation - a.spearmanCorrelation ≠ 0 := sub_ne_zero.mpr hs
      rw [if_neg h1, if_pos h2]
      constructor
      · intro h
        exact Or.inr (Or.inl ⟨hk, lt_of_le_of_ne (by linarith) hs⟩)
      · rintro (h | ⟨h₁, h₂⟩ | ⟨h₁, h₂, h₃⟩)
        · linarith
        · linarith
        · exact absurd h₂ hs
  · rw [if_pos (sub_ne_zero.mpr hk)]
    constructor
    · intro h
      exact Or.inl (lt_of_le_of_ne (by linarith) hk)
    · rintro (h | ⟨h₁, h₂⟩ | ⟨h₁, h₂, h₃⟩)
      · linarith
      · exact absurd h₁ hk
      · exact absurd h₁ hk

/-- The comparator is antisymmetric. -/
theorem candCompare_antisymm (a b : Candidate) : candCompare a b = -(candCompare b a) := by
  unfold candCompare
  rcases eq_or_ne b.kendallTau a.kendallTau with hk | hk
  · have h1 : ¬(b.kendallTau - a.kendallTau ≠ 0) := by rw [hk, sub_self]; simp
    have h1' : ¬(a.kendallTau - b.kendallTau ≠ 0) := by rw [hk, sub_self]; simp
    rcases eq_or_ne b.spearmanCorrelation a.spearmanCorrelation with hs | hs
    · have h2 : ¬(b.spearmanCorrelation - a.spearmanCorrelation ≠ 0) := by
        rw [hs, sub_self]; simp
      have h2' : ¬(a.spearmanCorrelation - b.spearmanCorrelation ≠ 0) := by
        rw [hs, sub_self]; simp
      rw [if_neg h1, if_neg h1', if_neg h2, if_neg h2']
      ring
    · rw [if_neg h1, if_neg h1', if_pos (sub_ne_zero.mpr hs),
        if_pos (sub_ne_zero.mpr (Ne.symm hs))]
      ring
  · rw [if_pos (sub_ne_zero.mpr hk), if_pos (sub_ne_zero.mpr (Ne.symm hk))]
    ring

/-- The sort order is transitive. -/
theorem candLE_trans (a b c : Candidate) (hab : candLE a b = true)
    (hbc : candLE b c = true) : candLE a c = true := by
  simp only [candLE, decide_eq_true_eq, candCompare_le_iff] at hab hbc ⊢
  rcases hab with h | ⟨h₁, h₂⟩ | ⟨h₁, h₂, h₃⟩ <;>
    rcases hbc with g | ⟨g₁, g₂⟩ | ⟨g₁, g₂, g₃⟩ <;>
      first
        | exact Or.inl (by linarith)
        | exact Or.inr (Or.inl ⟨by linarith, by linarith⟩)
        | exact Or.inr (Or.inr ⟨by linarith, by linarith, by linarith⟩)

/-- The sort order is total. -/
theorem candLE_total (a b : Candidate) : (candLE a b || candLE b a) = true := by
  rcases le_total (candCompare a b) 0 with h | h
  · simp [candLE, h]
  · have hba : candCompare b a ≤ 0 := by
      rw [candCompare_antisymm b a]
      linarith
    simp [candLE, hba]

/-- Sorting earlier implies a Kendall value at least as high. -/
theorem candLE_kendall (a b : Candidate) (h : candLE a b = true) :
    b.kendallTau ≤ a.kendallTau := by
  simp only [candLE, decide_eq_true_eq, candCompare_le_iff] at h
  rcases h with h | ⟨h₁, h₂⟩ | ⟨h₁, h₂, h₃⟩ <;> linarith

/-- Claim C4: a beam update can never lower the best Kendall value — the merge
step sorts the union of the previous beam and the new candidates, so the
previous `beam[0]` remains a candidate for re-selection, and the new `beam[0]`
scores at least as well. Applied at every iteration this makes
`beam[0].kendallTau` non-decreasing across iterations. -/
theorem updateBeam_best_monotone :
    ∀ (beam inMemoryCandidates : List Candidate) (beamWidth : ℕ) (b0 : Candidate),
      beam.head? = some b0 → 0 < beamWidth →
      ∃ nb0, (updateBeam beam inMemoryCandidates beamWidth).head? = some nb0 ∧
        b0.kendallTau ≤ nb0.kendallTau := by
  intro beam cands w b0 hh hw
  have hb0mem : b0 ∈ beam := by
    cases beam with
    | nil => simp at hh
    | cons x t =>
      simp only [List.head?_cons, Option.some.injEq] at hh
      exact hh ▸ List.mem_cons_self x t
  have hperm := List.mergeSort_perm (beam ++ cands) candLE
  have hmem : b0 ∈ (beam ++ cands).mergeSort candLE :=
    hperm.mem_iff.mpr (List.mem_append.mpr (Or.inl hb0mem))
  have hsorted := List.sorted_mergeSort candLE_trans candLE_total (beam ++ cands)
  cases hms : (beam ++ cands).mergeSort candLE with
  | nil => rw [hms] at hmem; simp at hmem
  | cons h t =>
    rw [hms] at hmem hsorted
    have hk : b0.kendallTau ≤ h.kendallTau := by
      rcases List.mem_cons.mp hmem with rfl | hmem'
      · exact le_refl _
      · exact candLE_kendall _ _ (List.rel_of_pairwise_cons hsorted hmem')
    refine ⟨h, ?_, hk⟩
    unfold updateBeam
    rw [hms]
    cases w with
    | zero => omega
    | succ n => simp

/-- Witness for C4: a singleton beam with best Kendall 0.65 merged with one new
candidate at 0.75 under beam width 3. -/
theorem updateBeam_best_monotone_witness :
    ([mkCand (13 / 20)] : List Candidate).head? = some (mkCand (13 / 20)) ∧
    (0 : ℕ) < 3 ∧
    ∃ nb0, (PromptOptimization.updateBeam [mkCand (13 / 20)] [mkCand (3 / 4)] 3).head? =
        some nb0 ∧ (mkCand (13 / 20)).kendallTau ≤ nb0.kendallTau :=
  ⟨rfl, by norm_num,
    updateBeam_best_monotone [mkCand (13 / 20)] [mkCand (3 / 4)] 3 (mkCand (13 / 20)) rfl
      (by norm_num)⟩

end ClaimC4

section ClaimC5

open EvaluationService

/-- The loop-pair enumeration hits exactly the index pairs `i < j < n`. -/
theorem ktPairs_mem (n : ℕ) (p : ℕ × ℕ) : p ∈ ktPairs n ↔ p.1 < p.2 ∧ p.2 < n := by
  cases p with
  | mk i j =>
    simp only [ktPairs, List.mem_flatMap, List.mem_map, List.mem_range, Prod.mk.injEq]
    constructor
    · rintro ⟨j', hj', i', hi', rfl, rfl⟩
      exact ⟨hi', hj'⟩
    · rintro ⟨h1, h2⟩
      exact ⟨j, h2, i, h1, rfl, rfl⟩

/-- The loop-pair enumeration lists every pair exactly once. -/
theorem ktPairs_nodup (n : ℕ) : (ktPairs n).Nodup := by
  unfold ktPairs
  rw [List.nodup_flatMap]
  constructor
  · intro j _
    exact (List.nodup_range j).map (fun a b h => by simpa using h)
  · refine (List.pairwise_lt_range n).imp ?_
    intro j₁ j₂ hlt p hp₁ hp₂
    rcases List.mem_map.mp hp₁ with ⟨i₁, _, rfl⟩
    rcases List.mem_map.mp hp₂ with ⟨i₂, _, heq⟩
    have : j₂ = j₁ := congrArg Prod.snd heq
    omega

/-- Counting over the loop-pair enumeration equals the cardinality of the
corresponding subset of the pair set. -/
theorem ktPairs_countP_eq_card (n : ℕ) (P : ℕ × ℕ → Prop) [DecidablePred P] :
    (ktPairs n).countP (fun p => decide (P p)) = ((ktPairFinset n).filter P).card := by
  rw [List.countP_eq_length_filter]
  have hnd : ((ktPairs n).filter (fun p => decide (P p))).Nodup :=
    (ktPairs_nodup n).filter _
  rw [← List.toFinset_card_of_nodup hnd, List.toFinset_filter]
  congr 1
  ext p
  simp only [Finset.mem_filter, List.mem_toFinset, ktPairs_mem, ktPairFinset,
    Finset.mem_product, Finset.mem_range, decide_eq_true_eq]
  constructor
  · rintro ⟨⟨h1, h2⟩, hP⟩
    exact ⟨⟨⟨by omega, h2⟩, h1⟩, hP⟩
  · rintro ⟨⟨⟨h0, h2⟩, h1⟩, hP⟩
    exact ⟨⟨h1, h2⟩, hP⟩

/-- Twice the number of enumerated pairs is `n(n−1)`: the loop ranges over
`n0 = n(n−1)/2` pairs. -/
theorem ktPairs_two_mul_length (n : ℕ) : 2 * (ktPairs n).length = n * (n - 1) := by
  induction n with
  | zero => rfl
  | succ n ih =>
    have h : ktPairs (n + 1) = ktPairs n ++ (List.range n).map (fun i => (i, n)) := by
      unfold ktPairs
      rw [List.range_succ, List.flatMap_append]
      simp
    rw [h, List.length_append, List.length_map, List.length_range, Nat.succ_sub_one]
    rcases n with _ | m
    · simp [show ktPairs 0 = [] from rfl]
    · rw [Nat.succ_sub_one] at ih
      ring_nf
      ring_nf at ih
      linarith

/-- Claim C5: for equal-length non-empty inputs, `calculateKendallTau` returns
`(concordant − discordant) / sqrt(n1 · n2)` with the pair counts given by the
spec's sign conditions over the set of index pairs `i < j` (returning `0` when
an adjusted denominator vanishes), and it evaluates to `1.0` on `[1,2,3]`
against `[1,2,3]` and `−1.0` on `[1,2,3]` against `[3,2,1]`. -/
theorem calculateKendallTau_spec :
    (∀ x y : List ℚ, x.length ≠ 0 → x.length = y.length →
      EvaluationService.calculateKendallTau x y =
        .ok (EvaluationService.ktSpecValue x y)) ∧
    EvaluationService.calculateKendallTau [1, 2, 3] [1, 2, 3] = .ok 1 ∧
    EvaluationService.calculateKendallTau [1, 2, 3] [3, 2, 1] = .ok (-1) := by
  have key : ∀ x y : List ℚ, x.length ≠ 0 → x.length = y.length →
      EvaluationService.calculateKendallTau x y =
        .ok (EvaluationService.ktSpecValue x y) := by
    intro x y hx hxy
    unfold calculateKendallTau
    rw [if_neg (by omega), if_neg (by omega)]
    simp only [ktPairs_countP_eq_card]
    rw [← apply_ite (Except.ok : ℝ → Except String ℝ)]
    rfl
  have hp : ktPairs 3 = [(0, 1), (0, 2), (1, 2)] := rfl
  have h9 : Real.sqrt 9 = 3 := by
    rw [show (9 : ℝ) = 3 ^ 2 by norm_num]
    exact Real.sqrt_sq (by norm_num)
  have s01 : ktSign ([1, 2, 3] : List ℚ) (0, 1) = 1 := by
    norm_num [ktSign, sgn, List.getD_cons_zero, List.getD_cons_succ]
  have s02 : ktSign ([1, 2, 3] : List ℚ) (0, 2) = 1 := by
    norm_num [ktSign, sgn, List.getD_cons_zero, List.getD_cons_succ]
  have s12 : ktSign ([1, 2, 3] : List ℚ) (1, 2) = 1 := by
    norm_num [ktSign, sgn, List.getD_cons_zero, List.getD_cons_succ]
  have t01 : ktSign ([3, 2, 1] : List ℚ) (0, 1) = -1 := by
    norm_num [ktSign, sgn, List.getD_cons_zero, List.getD_cons_succ]
  have t02 : ktSign ([3, 2, 1] : List ℚ) (0, 2) = -1 := by
    norm_num [ktSign, sgn, List.getD_cons_zero, List.getD_cons_succ]
  have t12 : ktSign ([3, 2, 1] : List ℚ) (1, 2) = -1 := by
    norm_num [ktSign, sgn, List.getD_cons_zero, List.getD_cons_succ]
  refine ⟨key, ?_, ?_⟩
  · unfold calculateKendallTau
    rw [if_neg (by norm_num), if_neg (by norm_num)]
    norm_num [hp, s01, s02, s12, List.countP_cons, List.countP_nil, h9]
  · unfold calculateKendallTau
    rw [if_neg (by norm_num), if_neg (by norm_num)]
    norm_num [hp, s01, s02, s12, t01, t02, t12, List.countP_cons, List.countP_nil, h9]

/-- Witness for C5: the general formula applied at the concrete input
`[1,2,3]` against `[1,2,3]`. -/
theorem calculateKendallTau_spec_witness :
    ([1, 2, 3] : List ℚ).length ≠ 0 ∧
    EvaluationService.calculateKendallTau [1, 2, 3] [1, 2, 3] =
      .ok (EvaluationService.ktSpecValue [1, 2, 3] [1, 2, 3]) :=
  ⟨by norm_num, calculateKendallTau_spec.1 [1, 2, 3] [1, 2, 3] (by norm_num) rfl⟩

end ClaimC5
